import Mathlib

/-!
Verification development for the renyuan-fei/Chip8 repository: a CHIP-8
virtual machine core (Rust, compiled to wasm) driven by a browser host
(`src/web/index.js`).  The host side below is a shallow embedding of
`index.js`; the core side is modelled from the specification, since the
Rust core sources are not part of the checked tree.
-/

namespace Chip8

/-! ## Host embedding (`src/web/index.js`) -/

/-- From `src/web/index.js` line 3: `const WIDTH = 64;` -/
def WIDTH : Nat := 64

/-- From `src/web/index.js` line 4: `const HEIGHT = 32;` -/
def HEIGHT : Nat := 32

/-- From `src/web/index.js` line 5: `const SCALE = 12;` -/
def SCALE : Nat := 12

/-- From `src/web/index.js` line 6: `const TICKS_PER_FRAME = 5;` -/
def TICKS_PER_FRAME : Nat := 5

/-- A browser keyboard event as the listeners receive it: an object
carrying a key string and a numeric key code (plus more fields we do not
model).  The host never inspects these fields. -/
structure KeyEvent where
  key : String
  keyCode : Nat
deriving DecidableEq

/-- An untyped JavaScript value, as far as the key-input boundary is
concerned: what the host could pass as the first argument of
`chip8.keypress`. -/
inductive JSValue where
  | num (n : Nat)
  | str (s : String)
  | event (e : KeyEvent)
deriving DecidableEq

/-- From `src/web/index.js` line 89: the keydown listener body is
`chip8.keypress(evt, true)` — the first argument passed to the core is
the raw event object. -/
def keydownArg (evt : KeyEvent) : JSValue := JSValue.event evt

/-- From `src/web/index.js` line 93: the keyup listener body is
`chip8.keypress(evt, false)` — the first argument is again the raw
event object. -/
def keyupArg (evt : KeyEvent) : JSValue := JSValue.event evt

/-- Second argument of `chip8.keypress` in the keydown listener. -/
def keydownPressed : Bool := true

/-- Second argument of `chip8.keypress` in the keyup listener. -/
def keyupPressed : Bool := false

/-- One call the host makes into the `EmuWasm` instance. -/
inductive HostCall where
  | tick
  | tickTimers
  | drawScreen (scale : Nat)
  | reset
  | loadGame (bytes : List Nat)
deriving DecidableEq

/-- From `src/web/index.js` lines 120–138 (`mainloop`): the per-frame sequence
of calls into the VM instance — `TICKS_PER_FRAME` calls to `chip8.tick()`,
then `chip8.tick_timers()`, then the render read `chip8.draw_screen(SCALE)`
(the canvas fills in between are not calls into the VM). -/
def mainloopFrame : List HostCall :=
  List.replicate TICKS_PER_FRAME HostCall.tick ++
    [HostCall.tickTimers, HostCall.drawScreen SCALE]

/-- From `src/web/index.js` line 73: the success path of `loadRom` stores the
fetched bytes into `currentRom` before resetting and loading. -/
def currentRomAfterLoad (bytes : List Nat) : List Nat := bytes

/-- From `src/web/index.js` lines 70–78: the calls the success path of
`loadRom` makes into the VM — `chip8.reset()`, `chip8.load_game(rom)`,
then `mainloop(chip8)` runs one frame (and schedules the next). -/
def loadRomCalls (bytes : List Nat) : List HostCall :=
  HostCall.reset :: HostCall.loadGame bytes :: mainloopFrame

/-- From `src/web/index.js` lines 104–109: the restart button listener cancels
the animation frame, then calls `chip8.reset()`, `chip8.load_game(currentRom)`
and `mainloop(chip8)`. -/
def restartCalls (currentRom : List Nat) : List HostCall :=
  HostCall.reset :: HostCall.loadGame currentRom :: mainloopFrame

/-- Outcome of the `fetch` in `loadRom` (`src/web/index.js` lines 62–68):
either the ROM bytes, or a non-ok HTTP response, or a network error. -/
inductive FetchResult where
  | ok (buffer : List Nat)
  | httpError (status : Nat) (statusText : String)
  | networkError (message : String)

/-- Everything observable about one `loadRom` call: the calls made into
the `chip8` instance, the new value of `currentRom`, whether `mainloop`
was entered, and the console error log. -/
structure LoadRomResult where
  chipCalls : List HostCall
  newCurrentRom : Option (List Nat)
  loopStarted : Bool
  consoleErrors : List String

/-- From `src/web/index.js` lines 61–83 (`loadRom`): on a successful fetch the
host stores `currentRom`, resets, loads and starts the loop; a non-ok
response throws before the second `.then`, and any error lands in the
`.catch`, which only logs — no call into `chip8` is made. -/
def loadRom (res : FetchResult) (currentRom : Option (List Nat)) : LoadRomResult :=
  match res with
  | FetchResult.ok buffer =>
      { chipCalls := loadRomCalls buffer
        newCurrentRom := some (currentRomAfterLoad buffer)
        loopStarted := true
        consoleErrors := [] }
  | FetchResult.httpError status statusText =>
      { chipCalls := []
        newCurrentRom := currentRom
        loopStarted := false
        consoleErrors :=
          ["Failed to load ROM: Error: Failed to load ROM: " ++
            toString status ++ " " ++ statusText] }
  | FetchResult.networkError message =>
      { chipCalls := []
        newCurrentRom := currentRom
        loopStarted := false
        consoleErrors := ["Failed to load ROM: " ++ message] }

/-! ## Core model

The Rust/wasm CHIP-8 core is not part of the checked sources, so the
definitions below are modelled from the specification (§3–§4.6). -/

/-- Modelled from the spec: a fatal VM fault (§4.2, §7) — stack overflow
on a call beyond depth 16, stack underflow on a return with depth 0. -/
inductive Fault where
  | stackOverflow
  | stackUnderflow
deriving DecidableEq

/-- Modelled from the spec: a distinguishable load error (§7 LoadError) —
the program is too large for the address space. -/
inductive LoadError where
  | tooLarge
deriving DecidableEq

/-- Modelled from the spec: the 16 × 5-byte hexadecimal font glyph table
written once at reset into the reserved low memory region (§3 Memory),
with `font_base = 0` so that the sprite address of digit `d` is `d * 5`. -/
def FONTSET : List Nat :=
  [0xF0, 0x90, 0x90, 0x90, 0xF0,
   0x20, 0x60, 0x20, 0x20, 0x70,
   0xF0, 0x10, 0xF0, 0x80, 0xF0,
   0xF0, 0x10, 0xF0, 0x10, 0xF0,
   0x90, 0x90, 0xF0, 0x10, 0x10,
   0xF0, 0x80, 0xF0, 0x10, 0xF0,
   0xF0, 0x80, 0xF0, 0x90, 0xF0,
   0xF0, 0x10, 0x20, 0x40, 0x40,
   0xF0, 0x90, 0xF0, 0x90, 0xF0,
   0xF0, 0x90, 0xF0, 0x10, 0xF0,
   0xF0, 0x90, 0xF0, 0x90, 0x90,
   0xE0, 0x90, 0xE0, 0x90, 0xE0,
   0xF0, 0x80, 0x80, 0x80, 0xF0,
   0xE0, 0x90, 0x90, 0x90, 0xE0,
   0xF0, 0x80, 0xF0, 0x80, 0xF0,
   0xF0, 0x80, 0xF0, 0x80, 0x80]

/-- Modelled from the spec (§3 data model): the whole VM state — 4096-byte
memory, sixteen 8-bit registers, 12-bit index register, program counter,
call stack with explicit depth (the list length), delay and sound timers,
16-key keypad, 64×32 monochrome display, the hidden "awaiting key for
register R" mode, an externally supplied randomness stream for opcode
`CXNN`, and the fault flag surfacing fatal stack errors. -/
structure Emu where
  pc : Nat
  ram : Nat → Nat
  screen : Nat → Nat → Bool
  vReg : Nat → Nat
  iReg : Nat
  stack : List Nat
  keys : Nat → Bool
  dt : Nat
  st : Nat
  awaiting : Option Nat
  rand : List Nat
  fault : Option Fault

/-- Modelled from the spec (§4.1): `read_byte` operates on a 12-bit-masked
address; the stored value is an 8-bit byte. -/
def readByte (ram : Nat → Nat) (a : Nat) : Nat := ram (a % 4096) % 256

/-- Modelled from the spec (§4.1): `write_byte` operates on a
12-bit-masked address and stores an 8-bit value. -/
def writeByte (ram : Nat → Nat) (a v : Nat) : Nat → Nat :=
  fun b => if b = a % 4096 then v % 256 else ram b

/-- Modelled from the spec (§3): update one of the sixteen 8-bit
general-purpose registers, truncating the stored value to 8 bits. -/
def updV (v : Nat → Nat) (x val : Nat) : Nat → Nat :=
  fun i => if i = x then val % 256 else v i

/-- Modelled from the spec (§3 lifecycle): `reset()` reinitializes the
font region, zeroes all registers/stack/timers/keypad/display, sets PC to
`0x200` and clears awaiting-key mode. -/
def reset : Emu where
  pc := 0x200
  ram := fun a => FONTSET.getD a 0
  screen := fun _ _ => false
  vReg := fun _ => 0
  iReg := 0
  stack := []
  keys := fun _ => false
  dt := 0
  st := 0
  awaiting := none
  rand := []
  fault := none

/-- Modelled from the spec (§4.1): `write_range(offset, bytes)` fails if
`offset + len(bytes) > 4096`, otherwise writes the bytes at consecutive
addresses from `offset`. -/
def write_range (ram : Nat → Nat) (offset : Nat) (bytes : List Nat) :
    Option (Nat → Nat) :=
  if offset + bytes.length > 4096 then none
  else some (fun a =>
    if offset ≤ a ∧ a < offset + bytes.length then bytes.getD (a - offset) 0 % 256
    else ram a)

/-- Modelled from the spec (§3 lifecycle, §4.1): `load_game(bytes)` writes
the program bytes into memory from `0x200` via `write_range`; it performs
no reset of its own, and on failure it signals a `LoadError` leaving the
state untouched. -/
def load_game (e : Emu) (bytes : List Nat) : Except LoadError Emu :=
  match write_range e.ram 0x200 bytes with
  | none => Except.error LoadError.tooLarge
  | some r => Except.ok { e with ram := r }

/-- Modelled from the spec (§4.4): `tick_timers()` decrements the delay
and sound timers by 1 each if currently nonzero, floored at 0. -/
def tick_timers (e : Emu) : Emu :=
  { e with
      dt := if e.dt = 0 then 0 else e.dt - 1
      st := if e.st = 0 then 0 else e.st - 1 }

/-- Modelled from the spec (§4.5): `set_key(index, pressed)` updates one
of the 16 keypad flags; an index outside 0–15 is a host-side contract
violation and is rejected at the boundary without touching any state.
It never resolves awaiting-key mode itself. -/
def set_key (e : Emu) (idx : Nat) (pressed : Bool) : Emu :=
  if idx < 16 then
    { e with keys := fun k => if k = idx then pressed else e.keys k }
  else e

/-- Modelled from the spec (§4.3 ADD): 8-bit sum and the carry bit, which
becomes VF. -/
def op_add (a b : Nat) : Nat × Nat := ((a + b) % 256, (a + b) / 256)

/-- Modelled from the spec (§4.3 SUB/SUBN): wrapping 8-bit difference
`a − b`; VF is 1 when no borrow occurs (`a ≥ b`), else 0. -/
def op_sub (a b : Nat) : Nat × Nat :=
  ((a + 256 - b) % 256, if a < b then 0 else 1)

/-- Modelled from the spec (§4.3 SHR): result is the operand shifted right
by 1; VF receives the bit shifted out, the pre-shift least-significant
bit. -/
def op_shr (a : Nat) : Nat × Nat := (a >>> 1, a &&& 1)

/-- Modelled from the spec (§4.3 SHL): result is the operand shifted left
by 1 truncated to 8 bits; VF receives the pre-shift most-significant
bit. -/
def op_shl (a : Nat) : Nat × Nat := ((a <<< 1) % 256, a >>> 7)

/-- Modelled from the spec (§4.3 draw): bit `i` (left to right, `i < 8`)
of one sprite row byte. -/
def spriteBit (b i : Nat) : Bool := decide ((b / 2 ^ (7 - i)) % 2 = 1)

/-- Modelled from the spec (§4.3 draw): whether some bit of the sprite,
placed at `(x, y)` with per-pixel wraparound modulo 64/32, covers the
display cell `(c, r)` — the XOR mask the draw applies to that cell. -/
def spriteHit (x y : Nat) (sprite : List Nat) (c r : Nat) : Bool :=
  (List.range sprite.length).any fun j =>
    (List.range 8).any fun i =>
      spriteBit (sprite.getD j 0) i &&
        decide ((x + i) % 64 = c) && decide ((y + j) % 32 = r)

/-- Modelled from the spec (§4.3 draw): collision is detected per
individual pixel across the whole sprite and OR-reduced — 1 iff some
previously-set pixel is hit (and hence cleared by the XOR). -/
def spriteCollision (scr : Nat → Nat → Bool) (x y : Nat) (sprite : List Nat) : Bool :=
  (List.range sprite.length).any fun j =>
    (List.range 8).any fun i =>
      spriteBit (sprite.getD j 0) i &&
        scr ((x + i) % 64) ((y + j) % 32)

/-- Modelled from the spec (§4.6): `blit(x, y, sprite_bytes)` XORs each
sprite bit onto the display at `(Vx + i) mod 64, (Vy + j) mod 32` and
returns the new display together with the collision flag. -/
def blit (scr : Nat → Nat → Bool) (x y : Nat) (sprite : List Nat) :
    (Nat → Nat → Bool) × Bool :=
  (fun c r => xor (scr c r) (spriteHit x y sprite c r),
   spriteCollision scr x y sprite)

/-- Modelled from the spec (§4.3 FX55): copy registers `V0..Vx` inclusive
to memory starting at `I`, in ascending register order; `I` itself is not
mutated (the documented policy for the §9 open question). -/
def dumpRegs (ram : Nat → Nat) (base : Nat) (v : Nat → Nat) (x : Nat) :
    Nat → Nat :=
  (List.range (x + 1)).foldl (fun r i => writeByte r (base + i) (v i % 256)) ram

/-- Modelled from the spec (§4.3 FX65): copy memory starting at `I` into
registers `V0..Vx` inclusive, in ascending register order. -/
def loadRegs (ram : Nat → Nat) (base : Nat) (v : Nat → Nat) (x : Nat) :
    Nat → Nat :=
  (List.range (x + 1)).foldl (fun w i => updV w i (readByte ram (base + i))) v

/-- Modelled from the spec (§4.3): one fetch/decode/execute cycle.  Two
consecutive bytes at PC form a big-endian 16-bit opcode; PC advances by 2
immediately; the top nibble selects the instruction family, with families
0, 8, E, F disambiguated by the low byte or low nibble.  Unknown opcodes
follow the skip-and-continue policy; stack overflow/underflow raise a
distinguishable fatal fault. -/
def execute (e : Emu) : Emu :=
  let hi := readByte e.ram e.pc
  let lo := readByte e.ram (e.pc + 1)
  let op := hi * 256 + lo
  let e1 := { e with pc := e.pc + 2 }
  let x := (op / 256) % 16
  let y := (op / 16) % 16
  let n := op % 16
  let nn := op % 256
  let nnn := op % 4096
  let vx := e.vReg x % 256
  let vy := e.vReg y % 256
  match op / 4096 with
  | 0 =>
    if op = 0x00E0 then { e1 with screen := fun _ _ => false }
    else if op = 0x00EE then
      match e1.stack with
      | [] => { e1 with fault := some Fault.stackUnderflow }
      | a :: rest => { e1 with pc := a, stack := rest }
    else e1
  | 1 => { e1 with pc := nnn }
  | 2 =>
    if 16 ≤ e1.stack.length then { e1 with fault := some Fault.stackOverflow }
    else { e1 with stack := e1.pc :: e1.stack, pc := nnn }
  | 3 => if vx = nn then { e1 with pc := e1.pc + 2 } else e1
  | 4 => if vx ≠ nn then { e1 with pc := e1.pc + 2 } else e1
  | 5 =>
    if n = 0 then (if vx = vy then { e1 with pc := e1.pc + 2 } else e1) else e1
  | 6 => { e1 with vReg := updV e1.vReg x nn }
  | 7 => { e1 with vReg := updV e1.vReg x (vx + nn) }
  | 8 =>
    match n with
    | 0 => { e1 with vReg := updV e1.vReg x vy }
    | 1 => { e1 with vReg := updV e1.vReg x (vx ||| vy) }
    | 2 => { e1 with vReg := updV e1.vReg x (vx &&& vy) }
    | 3 => { e1 with vReg := updV e1.vReg x (vx ^^^ vy) }
    | 4 =>
      let r := op_add vx vy
      { e1 with vReg := updV (updV e1.vReg x r.1) 15 r.2 }
    | 5 =>
      let r := op_sub vx vy
      { e1 with vReg := updV (updV e1.vReg x r.1) 15 r.2 }
    | 6 =>
      let r := op_shr vx
      { e1 with vReg := updV (updV e1.vReg x r.1) 15 r.2 }
    | 7 =>
      let r := op_sub vy vx
      { e1 with vReg := updV (updV e1.vReg x r.1) 15 r.2 }
    | 14 =>
      let r := op_shl vx
      { e1 with vReg := updV (updV e1.vReg x r.1) 15 r.2 }
    | _ => e1
  | 9 =>
    if n = 0 then (if vx ≠ vy then { e1 with pc := e1.pc + 2 } else e1) else e1
  | 10 => { e1 with iReg := nnn }
  | 11 => { e1 with pc := nnn + e.vReg 0 % 256 }
  | 12 =>
    { e1 with
        vReg := updV e1.vReg x ((e1.rand.headD 0 % 256) &&& nn)
        rand := e1.rand.drop 1 }
  | 13 =>
    let sprite := (List.range n).map fun j => readByte e1.ram (e1.iReg + j)
    let res := blit e1.screen vx vy sprite
    { e1 with
        screen := res.1
        vReg := updV e1.vReg 15 (if res.2 then 1 else 0) }
  | 14 =>
    if nn = 0x9E then
      (if e1.keys (vx % 16) then { e1 with pc := e1.pc + 2 } else e1)
    else if nn = 0xA1 then
      (if e1.keys (vx % 16) then e1 else { e1 with pc := e1.pc + 2 })
    else e1
  | _ =>
    if nn = 0x07 then { e1 with vReg := updV e1.vReg x e1.dt }
    else if nn = 0x0A then { e1 with awaiting := some x }
    else if nn = 0x15 then { e1 with dt := vx }
    else if nn = 0x18 then { e1 with st := vx }
    else if nn = 0x1E then { e1 with iReg := (e1.iReg + vx) % 4096 }
    else if nn = 0x29 then { e1 with iReg := vx * 5 }
    else if nn = 0x33 then
      { e1 with
          ram := writeByte
            (writeByte (writeByte e1.ram e1.iReg (vx / 100))
              (e1.iReg + 1) (vx / 10 % 10))
            (e1.iReg + 2) (vx % 10) }
    else if nn = 0x55 then { e1 with ram := dumpRegs e1.ram e1.iReg e1.vReg x }
    else if nn = 0x65 then { e1 with vReg := loadRegs e1.ram e1.iReg e1.vReg x }
    else e1

/-- Modelled from the spec (§3 Keypad, §4.3 FX0A): the pressed key, if
any, observed by a `step()` while in awaiting-key mode (the lowest-index
pressed key of the 16). -/
def firstPressed (keys : Nat → Bool) : Option Nat :=
  (List.range 16).find? fun k => keys k

/-- Modelled from the spec (§4.3): one `step()` call performs exactly one
instruction — unless the VM is in awaiting-key mode, in which case the
step only re-checks the keypad: if some key is pressed its index is
stored into the waited-on register and the stall is cleared (PC was
already advanced by the FX0A fetch and does not move); otherwise the
step is a no-op. -/
def step (e : Emu) : Emu :=
  match e.awaiting with
  | some r =>
    match firstPressed e.keys with
    | some k => { e with vReg := updV e.vReg r k, awaiting := none }
    | none => e
  | none => execute e

/-- Interpretation of one host call on the core model: `chip8.tick()` is
one execution step, `chip8.tick_timers()` one timer tick, `draw_screen`
a pure render read, `reset`/`load_game` as modelled above (a failed load
throws in the wasm wrapper, leaving the state as it was). -/
def applyCall (e : Emu) : HostCall → Emu
  | HostCall.tick => step e
  | HostCall.tickTimers => tick_timers e
  | HostCall.drawScreen _ => e
  | HostCall.reset => reset
  | HostCall.loadGame bytes =>
    match load_game e bytes with
    | Except.ok e2 => e2
    | Except.error _ => e

/-- The effect of a host call sequence on the core model. -/
def applyCalls (e : Emu) (cs : List HostCall) : Emu := cs.foldl applyCall e

/-! ## Claims -/

/-- C1, counterexample: at the concrete keydown event `{key := "F13",
keyCode := 124}` the value the host listener passes to the core is the
raw event object, not a validated integer key index in [0, 15] — so the
host performs no boundary reduction of key events. -/
theorem keydown_no_validated_index :
    ¬ ∃ k, k ≤ 15 ∧ keydownArg ⟨"F13", 124⟩ = JSValue.num k := by
  rintro ⟨k, -, h⟩
  simp [keydownArg] at h

/-- C1, amended: the keydown/keyup listeners pass the raw browser event
object directly to `chip8.keypress` (with the pressed flag), performing
no translation or validation in the host; any reduction to the logical
0–15 key space happens inside the core's `keypress`, not at the host
boundary. -/
theorem keydown_keyup_pass_raw_event (evt : KeyEvent) :
    keydownArg evt = JSValue.event evt ∧ keyupArg evt = JSValue.event evt ∧
      keydownPressed = true ∧ keyupPressed = false :=
  ⟨rfl, rfl, rfl, rfl⟩

/-- C2: each frame of the host loop issues exactly `TICKS_PER_FRAME = 5`
`tick()` calls, then exactly one `tick_timers()`, then exactly one render
read `draw_screen(SCALE)`, in that order — never a timer tick or render
before or between the execution steps of the frame. -/
theorem frame_call_order :
    TICKS_PER_FRAME = 5 ∧
    mainloopFrame =
      List.replicate 5 HostCall.tick ++
        [HostCall.tickTimers, HostCall.drawScreen SCALE] ∧
    mainloopFrame.count HostCall.tick = 5 ∧
    mainloopFrame.count HostCall.tickTimers = 1 ∧
    mainloopFrame.count (HostCall.drawScreen SCALE) = 1 ∧
    mainloopFrame.take 5 = List.replicate 5 HostCall.tick ∧
    mainloopFrame.getD 5 HostCall.tick = HostCall.tickTimers ∧
    mainloopFrame.getD 6 HostCall.tick = HostCall.drawScreen SCALE ∧
    mainloopFrame.length = 7 := by
  decide

/-- C3: the restart path calls `reset()` first and then `load_game()`
with the same bytes previously stored in `currentRom`; the initial load
path has the same reset-then-load shape; in both, one `mainloop` frame
follows, resuming the frame loop; and `load_game` itself performs no
reset — on success it leaves every non-memory component (PC, registers,
stack, timers, display, keypad, awaiting-key mode) exactly as it was. -/
theorem restart_reset_then_load (rom : List Nat) (e : Emu) :
    restartCalls (currentRomAfterLoad rom) =
      HostCall.reset :: HostCall.loadGame rom :: mainloopFrame ∧
    loadRomCalls rom =
      HostCall.reset :: HostCall.loadGame rom :: mainloopFrame ∧
    Except.map Emu.pc (load_game e rom) =
      Except.map (fun _ => e.pc) (load_game e rom) ∧
    Except.map Emu.vReg (load_game e rom) =
      Except.map (fun _ => e.vReg) (load_game e rom) ∧
    Except.map Emu.iReg (load_game e rom) =
      Except.map (fun _ => e.iReg) (load_game e rom) ∧
    Except.map Emu.stack (load_game e rom) =
      Except.map (fun _ => e.stack) (load_game e rom) ∧
    Except.map Emu.dt (load_game e rom) =
      Except.map (fun _ => e.dt) (load_game e rom) ∧
    Except.map Emu.st (load_game e rom) =
      Except.map (fun _ => e.st) (load_game e rom) ∧
    Except.map Emu.screen (load_game e rom) =
      Except.map (fun _ => e.screen) (load_game e rom) ∧
    Except.map Emu.keys (load_game e rom) =
      Except.map (fun _ => e.keys) (load_game e rom) ∧
    Except.map Emu.awaiting (load_game e rom) =
      Except.map (fun _ => e.awaiting) (load_game e rom) := by
  refine ⟨rfl, rfl, ?_, ?_, ?_, ?_, ?_, ?_, ?_, ?_, ?_⟩ <;>
    cases h : write_range e.ram 0x200 rom <;>
      simp [load_game, h, Except.map]

/-- C10: when the ROM fetch fails — non-ok HTTP response or network
error — `loadRom` makes no call into the emulator (no `reset`, no
`load_game`), does not start the main loop, leaves `currentRom` as it
was, and the emulator state is exactly what it was before the call; the
failure is only logged to the console. -/
theorem loadRom_failure_no_effect (s : Nat) (t m : String)
    (cur : Option (List Nat)) (e : Emu) :
    (loadRom (FetchResult.httpError s t) cur).chipCalls = [] ∧
    (loadRom (FetchResult.httpError s t) cur).newCurrentRom = cur ∧
    (loadRom (FetchResult.httpError s t) cur).loopStarted = false ∧
    (loadRom (FetchResult.httpError s t) cur).consoleErrors.length = 1 ∧
    applyCalls e (loadRom (FetchResult.httpError s t) cur).chipCalls = e ∧
    (loadRom (FetchResult.networkError m) cur).chipCalls = [] ∧
    (loadRom (FetchResult.networkError m) cur).newCurrentRom = cur ∧
    (loadRom (FetchResult.networkError m) cur).loopStarted = false ∧
    (loadRom (FetchResult.networkError m) cur).consoleErrors.length = 1 ∧
    applyCalls e (loadRom (FetchResult.networkError m) cur).chipCalls = e :=
  ⟨rfl, rfl, rfl, rfl, rfl, rfl, rfl, rfl, rfl, rfl⟩

/-- C6: after `reset()` with no load and no steps, every general-purpose
register is 0, the index register is 0, PC is `0x200`, the stack depth is
0, both timers are 0, every display pixel is false, every keypad flag is
false, and awaiting-key mode is cleared. -/
theorem reset_initial_state :
    (∀ x, reset.vReg x = 0) ∧ reset.iReg = 0 ∧ reset.pc = 0x200 ∧
    reset.stack.length = 0 ∧ reset.dt = 0 ∧ reset.st = 0 ∧
    (∀ c r, reset.screen c r = false) ∧ (∀ k, reset.keys k = false) ∧
    reset.awaiting = none :=
  ⟨fun _ => rfl, rfl, rfl, rfl, rfl, rfl, fun _ _ => rfl, fun _ => rfl, rfl⟩

lemma tick_timers_dt_eq (e : Emu) : (tick_timers e).dt = e.dt - 1 := by
  show (if e.dt = 0 then 0 else e.dt - 1) = e.dt - 1
  split <;> omega

lemma tick_timers_st_eq (e : Emu) : (tick_timers e).st = e.st - 1 := by
  show (if e.st = 0 then 0 else e.st - 1) = e.st - 1
  split <;> omega

lemma tick_timers_iterate_dt (e : Emu) (N : Nat) :
    (tick_timers^[N] e).dt = e.dt - N := by
  induction N generalizing e with
  | zero => simp
  | succ n ih =>
    rw [Function.iterate_succ_apply, ih, tick_timers_dt_eq]
    omega

/-- C7: after `N` calls to `tick_timers()` with no intervening timer
writes the delay timer equals `max(0, initial − N)`, and a single
`tick_timers()` call takes each of the delay and sound timers to
`max(0, value − 1)` — that is, decrements it by exactly 1 if nonzero and
leaves it at 0 otherwise. -/
theorem timer_monotonic_decrease (e : Emu) (N : Nat) :
    ((tick_timers^[N] e).dt : Int) = max 0 ((e.dt : Int) - N) ∧
    ((tick_timers e).dt : Int) = max 0 ((e.dt : Int) - 1) ∧
    ((tick_timers e).st : Int) = max 0 ((e.st : Int) - 1) := by
  refine ⟨?_, ?_, ?_⟩
  · rw [tick_timers_iterate_dt, max_def]; split <;> omega
  · rw [tick_timers_dt_eq, max_def]; split <;> omega
  · rw [tick_timers_st_eq, max_def]; split <;> omega

/-- C5: for 8-bit operands, ADD (8XY4) sets VF to 1 iff `a + b > 255` and
to 0 otherwise; SUB (8XY5) sets VF to 1 iff `a ≥ b` (and 0 iff a borrow
occurs); SHR (8XY6) sets VF to the pre-shift least-significant bit and
yields the operand shifted right by 1; SHL (8XYE) sets VF to the
pre-shift most-significant bit (bit 7) and yields the operand shifted
left by 1 truncated to 8 bits. -/
theorem arithmetic_flags (a b : Nat) (ha : a < 256) (hb : b < 256) :
    ((op_add a b).2 = 1 ↔ 255 < a + b) ∧
    ((op_add a b).2 = 0 ↔ a + b ≤ 255) ∧
    (op_add a b).1 = (a + b) % 256 ∧
    ((op_sub a b).2 = 1 ↔ b ≤ a) ∧
    ((op_sub a b).2 = 0 ↔ a < b) ∧
    (op_shr a).2 = a % 2 ∧ (op_shr a).1 = a / 2 ∧
    (op_shl a).2 = a / 128 % 2 ∧ (op_shl a).1 = a * 2 % 256 := by
  have hadd : (op_add a b).2 = (a + b) / 256 := rfl
  have hsub : (op_sub a b).2 = if a < b then 0 else 1 := rfl
  have hshr2 : (op_shr a).2 = a % 2 := Nat.and_one_is_mod a
  have hshr1 : (op_shr a).1 = a / 2 := by
    show a >>> 1 = a / 2
    rw [Nat.shiftRight_eq_div_pow]
  have hshl2 : (op_shl a).2 = a / 128 := by
    show a >>> 7 = a / 128
    rw [Nat.shiftRight_eq_div_pow]
  have hshl1 : (op_shl a).1 = a * 2 % 256 := by
    show a <<< 1 % 256 = a * 2 % 256
    rw [Nat.shiftLeft_eq]
  refine ⟨?_, ?_, rfl, ?_, ?_, hshr2, hshr1, ?_, hshl1⟩
  · rw [hadd]; omega
  · rw [hadd]; omega
  · rw [hsub]; split <;> omega
  · rw [hsub]; split <;> omega
  · rw [hshl2]; omega

/-- Witness for C5 at the concrete operands `a = 200`, `b = 100`. -/
theorem arithmetic_flags_witness :
    ((op_add 200 100).2 = 1 ↔ 255 < 200 + 100) ∧
    ((op_add 200 100).2 = 0 ↔ 200 + 100 ≤ 255) ∧
    (op_add 200 100).1 = (200 + 100) % 256 ∧
    ((op_sub 200 100).2 = 1 ↔ 100 ≤ 200) ∧
    ((op_sub 200 100).2 = 0 ↔ 200 < 100) ∧
    (op_shr 200).2 = 200 % 2 ∧ (op_shr 200).1 = 200 / 2 ∧
    (op_shl 200).2 = 200 / 128 % 2 ∧ (op_shl 200).1 = 200 * 2 % 256 :=
  arithmetic_flags 200 100 (by decide) (by decide)

/-- The memory produced by a successful `load_game`: program bytes from
`0x200`, everything else unchanged. -/
def loadedRam (ram : Nat → Nat) (bytes : List Nat) : Nat → Nat :=
  fun a =>
    if 0x200 ≤ a ∧ a < 0x200 + bytes.length then bytes.getD (a - 0x200) 0 % 256
    else ram a

lemma load_game_ok (e : Emu) (bytes : List Nat) (h : bytes.length ≤ 3584) :
    load_game e bytes = Except.ok { e with ram := loadedRam e.ram bytes } := by
  have hc : ¬ (0x200 + bytes.length > 4096) := by omega
  simp only [load_game, write_range, loadedRam, if_neg hc]
  rfl

/-- C9: `load_game` succeeds for every program of length at most 3584
bytes, with the program counter at `0x200` so execution starts there; it
fails with the distinguishable `LoadError` exactly when the bytes written
from the load offset `0x200` would exceed address 4096 (equivalently,
length > 3584); and on failure the VM is left in its pre-load reset
state — the host-side effect of the failed `load_game` call leaves the
reset state untouched, so no execution is attempted on it. -/
theorem load_game_contract (bytes : List Nat) :
    (bytes.length ≤ 3584 →
      ∃ e, load_game reset bytes = Except.ok e ∧ e.pc = 0x200) ∧
    (0x200 + bytes.length > 4096 →
      load_game reset bytes = Except.error LoadError.tooLarge ∧
      applyCall reset (HostCall.loadGame bytes) = reset) ∧
    (0x200 + bytes.length > 4096 ↔ 3584 < bytes.length) := by
  refine ⟨?_, ?_, by omega⟩
  · intro h
    exact ⟨_, load_game_ok reset bytes h, rfl⟩
  · intro h
    have herr : load_game reset bytes = Except.error LoadError.tooLarge := by
      simp [load_game, write_range, h]
    exact ⟨herr, by simp [applyCall, herr]⟩

/-- Witness for C9: a 1-byte program loads successfully with PC `0x200`;
a 3585-byte program is rejected with `LoadError.tooLarge`, leaving the
reset state untouched. -/
theorem load_game_contract_witness :
    (∃ e, load_game reset [7] = Except.ok e ∧ e.pc = 0x200) ∧
    (load_game reset (List.replicate 3585 0) = Except.error LoadError.tooLarge ∧
      applyCall reset (HostCall.loadGame (List.replicate 3585 0)) = reset) :=
  ⟨(load_game_contract [7]).1 (by simp),
   (load_game_contract (List.replicate 3585 0)).2.1
     (by simp only [List.length_replicate]; omega)⟩

lemma spriteHit_of_bit (x y : Nat) {sprite : List Nat} {j i : Nat}
    (hj : j < sprite.length) (hi : i < 8)
    (hb : spriteBit (sprite.getD j 0) i = true) :
    spriteHit x y sprite ((x + i) % 64) ((y + j) % 32) = true := by
  unfold spriteHit
  rw [List.any_eq_true]
  refine ⟨j, List.mem_range.mpr hj, ?_⟩
  rw [List.any_eq_true]
  exact ⟨i, List.mem_range.mpr hi, by rw [hb]; simp⟩

/-- C4, counterexample: on an all-clear display, drawing the one-pixel
sprite `[0x80]` at `(0, 0)` twice gives collision flag 1 on the second
draw, although no pixel of the sprite footprint was set before the first
draw (the pre-draw collision test over the footprint is `false`) — so the
second draw's collision flag is not "1 exactly when some footprint pixel
was set before the first draw". -/
theorem draw_second_collision_cex :
    (blit (blit (fun _ _ => false) 0 0 [128]).1 0 0 [128]).2 = true ∧
    spriteCollision (fun _ _ => false) 0 0 [128] = false := by
  exact ⟨by decide, by decide⟩

/-- C4, amended: for every display state, sprite byte sequence and
coordinate pair, drawing the identical sprite at the identical
coordinates twice restores the exact pre-draw pixel state, and the
second draw's collision flag equals 1 exactly when some pixel of the
sprite's footprint was CLEAR in the state before the first draw (the
first draw sets precisely those pixels, and the second then clears
them). -/
theorem draw_double_xor (scr : Nat → Nat → Bool) (x y : Nat)
    (sprite : List Nat) :
    (blit (blit scr x y sprite).1 x y sprite).1 = scr ∧
    ((blit (blit scr x y sprite).1 x y sprite).2 = true ↔
      ∃ j, j < sprite.length ∧ ∃ i, i < 8 ∧
        spriteBit (sprite.getD j 0) i = true ∧
        scr ((x + i) % 64) ((y + j) % 32) = false) := by
  constructor
  · funext c r
    show xor (xor (scr c r) (spriteHit x y sprite c r)) (spriteHit x y sprite c r)
      = scr c r
    cases scr c r <;> cases spriteHit x y sprite c r <;> rfl
  · show spriteCollision (blit scr x y sprite).1 x y sprite = true ↔ _
    constructor
    · intro h
      unfold spriteCollision at h
      rw [List.any_eq_true] at h
      obtain ⟨j, hj, h2⟩ := h
      rw [List.any_eq_true] at h2
      obtain ⟨i, hi, h3⟩ := h2
      rw [List.mem_range] at hj
      rw [List.mem_range] at hi
      rw [Bool.and_eq_true] at h3
      obtain ⟨hb, hs⟩ := h3
      have hhit := spriteHit_of_bit x y hj hi hb
      refine ⟨j, hj, i, hi, hb, ?_⟩
      have hs2 : xor (scr ((x + i) % 64) ((y + j) % 32))
          (spriteHit x y sprite ((x + i) % 64) ((y + j) % 32)) = true := hs
      rw [hhit] at hs2
      cases hscr : scr ((x + i) % 64) ((y + j) % 32)
      · rfl
      · rw [hscr] at hs2
        simp at hs2
    · rintro ⟨j, hj, i, hi, hb, hscr⟩
      unfold spriteCollision
      rw [List.any_eq_true]
      refine ⟨j, List.mem_range.mpr hj, ?_⟩
      rw [List.any_eq_true]
      refine ⟨i, List.mem_range.mpr hi, ?_⟩
      rw [Bool.and_eq_true]
      refine ⟨hb, ?_⟩
      show xor (scr ((x + i) % 64) ((y + j) % 32))
        (spriteHit x y sprite ((x + i) % 64) ((y + j) % 32)) = true
      rw [hscr, spriteHit_of_bit x y hj hi hb]
      rfl

lemma step_of_awaiting (e : Emu) (r : Nat) (h : e.awaiting = some r) :
    step e =
      match firstPressed e.keys with
      | some k => { e with vReg := updV e.vReg r k, awaiting := none }
      | none => e := by
  unfold step
  rw [h]

lemma step_of_none (e : Emu) (h : e.awaiting = none) : step e = execute e := by
  unfold step
  rw [h]

lemma firstPressed_none (keys : Nat → Bool) (hK : ∀ k, keys k = false) :
    firstPressed keys = none := by
  unfold firstPressed
  exact List.find?_eq_none.mpr fun k _ => by simp [hK k]

lemma set_key_5 (e : Emu) :
    set_key e 5 true = { e with keys := fun k => if k = 5 then true else e.keys k } := by
  unfold set_key
  rw [if_pos (by omega)]

lemma execute_ld_pc (e : Emu) (hhi : readByte e.ram e.pc = 0x60)
    (hlo : readByte e.ram (e.pc + 1) = 0x07) : (execute e).pc = e.pc + 2 := by
  unfold execute
  rw [hhi, hlo]

/-- C8: while the VM awaits a key for register R, `step()` leaves the
whole state (the program counter included) unchanged when no key is
pressed; `set_key(5, true)` itself resolves nothing — it leaves the
awaiting mode, the registers and the PC untouched; the next `step()`
then stores 5 into register R and clears the stall without moving the
PC; and on the following `step()` normal PC advancement resumes (here
the instruction `0x6007` at PC advances it by 2). -/
theorem key_wait_resolution (e : Emu) (r : Nat)
    (hA : e.awaiting = some r)
    (hK : ∀ k, e.keys k = false)
    (hOp : e.ram (e.pc % 4096) = 0x60 ∧ e.ram ((e.pc + 1) % 4096) = 0x07) :
    step e = e ∧
    (set_key e 5 true).awaiting = some r ∧
    (∀ i, (set_key e 5 true).vReg i = e.vReg i) ∧
    (set_key e 5 true).pc = e.pc ∧
    (step (set_key e 5 true)).vReg r = 5 ∧
    (step (set_key e 5 true)).awaiting = none ∧
    (step (set_key e 5 true)).pc = e.pc ∧
    (step (step (set_key e 5 true))).pc = e.pc + 2 := by
  have hsk := set_key_5 e
  have h1 : step e = e := by
    rw [step_of_awaiting e r hA, firstPressed_none e.keys hK]
  have hkeys : (set_key e 5 true).keys = fun k => decide (k = 5) := by
    rw [hsk]
    funext k
    by_cases h : k = 5 <;> simp [h, hK k]
  have hfp5 : firstPressed (fun k => decide (k = 5)) = some 5 := by decide
  have hfp : firstPressed (set_key e 5 true).keys = some 5 := by
    rw [hkeys]
    exact hfp5
  have hA2 : (set_key e 5 true).awaiting = some r := by rw [hsk]; exact hA
  have hstep : step (set_key e 5 true) =
      { set_key e 5 true with
          vReg := updV (set_key e 5 true).vReg r 5, awaiting := none } := by
    rw [step_of_awaiting _ r hA2, hfp]
  have hvr : (step (set_key e 5 true)).vReg r = 5 := by
    rw [hstep]
    show updV (set_key e 5 true).vReg r 5 r = 5
    unfold updV
    rw [if_pos rfl]
  have hpc1 : (step (set_key e 5 true)).pc = e.pc := by rw [hstep, hsk]
  have hram1 : (step (set_key e 5 true)).ram = e.ram := by rw [hstep, hsk]
  have hnone : (step (set_key e 5 true)).awaiting = none := by rw [hstep]
  have hex : step (step (set_key e 5 true)) = execute (step (set_key e 5 true)) :=
    step_of_none _ hnone
  have hfin : (step (step (set_key e 5 true))).pc = e.pc + 2 := by
    rw [hex, execute_ld_pc _ ?_ ?_, hpc1] <;>
      · unfold readByte
        rw [hram1, hpc1]
        first
        | rw [hOp.1]
        | rw [hOp.2]
  refine ⟨h1, hA2, ?_, by rw [hsk], hvr, hnone, hpc1, hfin⟩
  intro i
  rw [hsk]

/-- A concrete machine awaiting a key for register 2, with the
instruction `0x6007` at `0x200` and no key pressed. -/
def keyWaitEmu : Emu :=
  { reset with
      awaiting := some 2
      ram := fun a => if a = 0x200 then 0x60 else if a = 0x201 then 0x07 else 0 }

/-- Witness for C8 at the concrete state `keyWaitEmu` with register 2. -/
theorem key_wait_resolution_witness :
    step keyWaitEmu = keyWaitEmu ∧
    (set_key keyWaitEmu 5 true).awaiting = some 2 ∧
    (∀ i, (set_key keyWaitEmu 5 true).vReg i = keyWaitEmu.vReg i) ∧
    (set_key keyWaitEmu 5 true).pc = keyWaitEmu.pc ∧
    (step (set_key keyWaitEmu 5 true)).vReg 2 = 5 ∧
    (step (set_key keyWaitEmu 5 true)).awaiting = none ∧
    (step (set_key keyWaitEmu 5 true)).pc = keyWaitEmu.pc ∧
    (step (step (set_key keyWaitEmu 5 true))).pc = keyWaitEmu.pc + 2 :=
  key_wait_resolution keyWaitEmu 2 rfl (fun _ => rfl) ⟨rfl, rfl⟩

end Chip8
